import Mathlib

/-!
Verification of the x402-agentpad SDK core against its specification.

The TypeScript sources are shallowly embedded: pure functions become Lean
functions, stateful methods become explicit state passing, JavaScript
numbers used for money are modelled with exact rational semantics, string
amounts in atomic units with Nat, and fallible code with Except/Option.
External services (the trading platform, the language model, the chain RPC)
are parameters (scripts) of the functions that call them, and the calls a
function issues are returned as an explicit trace.
-/

namespace AgentPad

/- ===================== JavaScript string primitives ===================== -/

/-- The character left brace, written via its code so that brace characters
never appear literally inside the file's strings. -/
def lbrace : Char := '\x7b'

/-- The character right brace. -/
def rbrace : Char := '\x7d'

/-- Whitespace class of JavaScript regular expressions (ASCII part). -/
def isJsWs (c : Char) : Bool :=
  c == ' ' || c == '\t' || c == '\n' || c == '\r' || c == '\x0b' || c == '\x0c'

/-- ASCII lower-casing of one character, the fragment of
String.prototype.toLowerCase relevant to addresses and tickers. -/
def jsLowerChar (c : Char) : Char :=
  if 65 ≤ c.toNat ∧ c.toNat ≤ 90 then Char.ofNat (c.toNat + 32) else c

/-- ASCII upper-casing of one character. -/
def jsUpperChar (c : Char) : Char :=
  if 97 ≤ c.toNat ∧ c.toNat ≤ 122 then Char.ofNat (c.toNat - 32) else c

/-- Model of s.toLowerCase() (ASCII fragment). -/
def jsToLower (s : String) : String := String.mk (s.data.map jsLowerChar)

/-- Model of s.toUpperCase() (ASCII fragment). -/
def jsToUpper (s : String) : String := String.mk (s.data.map jsUpperChar)

/- ===================== JSON value model ===================== -/

/-- Exact scaled-decimal value of a JavaScript number: the represented
value is (if neg then -1 else 1) * digits * 10 ^ expo. Every number a
JSON literal or parseFloat can produce is of this shape, so the model is
exact (floating-point rounding of the source runtime is deliberately
replaced by exact decimal semantics). -/
structure JsNum where
  neg : Bool
  digits : Nat
  expo : Int
deriving DecidableEq

/-- JSON values as produced by JSON.parse. -/
inductive Json where
  | null : Json
  | bool (b : Bool) : Json
  | num (n : JsNum) : Json
  | str (s : String) : Json
  | arr (elems : List Json) : Json
  | obj (fields : List (String × Json)) : Json

/-- JavaScript truthiness of a JSON value. -/
def jsTruthy : Json → Bool
  | .null => false
  | .bool b => b
  | .num n => n.digits != 0
  | .str s => !s.isEmpty
  | .arr _ => true
  | .obj _ => true

/-- Property access parsed.k on a parsed JSON value: some v when the value
is an object carrying the key, none (undefined) otherwise. -/
def Json.getField (j : Json) (k : String) : Option Json :=
  match j with
  | .obj fs => fs.lookup k
  | _ => none

/-- Model of (parsed.k || d): the field's value when present and truthy,
otherwise the default. -/
def jsOrField (j : Json) (k : String) (d : Json) : Json :=
  match j.getField k with
  | some v => if jsTruthy v then v else d
  | none => d

/-- Field access combined with a truthiness test, as in the dispatcher's
guards (!decision.params?.k). -/
def truthyField (j : Json) (k : String) : Option Json :=
  match j.getField k with
  | some v => if jsTruthy v then some v else none
  | none => none

/-- Render a natural number as a zero-padded decimal string of width w. -/
def natPad (w n : Nat) : String :=
  let s := toString n
  String.mk (List.replicate (w - s.length) '0') ++ s

/-- Decimal rendering of a scaled-decimal number, as Number.prototype
.toString produces for values in the plain-notation range (the very-large
and very-small exponent-notation ranges are not modelled; negative zero
prints as "0" as in JavaScript). -/
def jsNumToString (n : JsNum) : String :=
  let sign := if n.neg ∧ n.digits ≠ 0 then "-" else ""
  if 0 ≤ n.expo then sign ++ toString (n.digits * 10 ^ n.expo.toNat)
  else
    let k := (-n.expo).toNat
    let ip := n.digits / 10 ^ k
    let frac := n.digits % 10 ^ k
    if frac = 0 then sign ++ toString ip
    else
      let fracStr := natPad k frac
      let trimmed := String.mk (fracStr.data.reverse.dropWhile (· == '0')).reverse
      sign ++ toString ip ++ "." ++ trimmed

mutual

/-- Model of the String(v) conversion. Array printing joins the element
strings (the null-inside-array corner of JavaScript is not modelled). -/
def jsToString : Json → String
  | .null => "null"
  | .bool true => "true"
  | .bool false => "false"
  | .str s => s
  | .num n => jsNumToString n
  | .arr xs => String.intercalate "," (jsToStringElems xs)
  | .obj _ => "[object Object]"

/-- String conversions of the elements of a JSON array. -/
def jsToStringElems : List Json → List String
  | [] => []
  | x :: xs => jsToString x :: jsToStringElems xs

end

/-- Template interpolation of a possibly absent value. -/
def jsFieldToString (o : Option Json) : String :=
  match o with
  | none => "undefined"
  | some v => jsToString v

/- ===================== parseDecision (ai-provider.ts) ===================== -/

/-- The closed action vocabulary of X402AIProvider.parseDecision. -/
def validActions : List String :=
  ["buy", "sell", "launch", "discover", "analyze", "wait", "stop"]

/-- Longest prefix of the input ending at the last occurrence of c, the
greedy continuation of the regex fragment any-star followed by c. -/
def takeToLast (c : Char) : List Char → Option (List Char)
  | [] => none
  | x :: xs =>
    match takeToLast c xs with
    | some ys => some (x :: ys)
    | none => if x == c then some [x] else none

/-- Leftmost-greedy match of the regex brace, any-star, brace used by
parseDecision to locate a JSON candidate: the engine tries each start
position in order; at a left brace the greedy star extends to the last
right brace of the remaining text. -/
def braceMatchScan : List Char → Option (List Char)
  | [] => none
  | x :: xs =>
    if x == lbrace then
      match takeToLast rbrace xs with
      | some ys => some (x :: ys)
      | none => braceMatchScan xs
    else braceMatchScan xs

/-- Split off a run of regex whitespace followed by a closing brace or
bracket, the context of the trailing-comma-stripping replacement. -/
def splitWsClose : List Char → Option (List Char × Char × List Char)
  | [] => none
  | c :: cs =>
    if c == rbrace || c == ']' then some ([], c, cs)
    else if isJsWs c then
      match splitWsClose cs with
      | some (ws, b, rest) => some (c :: ws, b, rest)
      | none => none
    else none

/-- Fuel-bounded worker for the trailing-comma replacement; the fuel
(instantiated with the input length, which every scanning step strictly
shrinks) only serves totality. -/
def stripTCAux : Nat → List Char → List Char
  | 0, cs => cs
  | _ + 1, [] => []
  | fuel + 1, c :: cs =>
    if c == ',' then
      match splitWsClose cs with
      | some (ws, b, rest) => ws ++ b :: stripTCAux fuel rest
      | none => c :: stripTCAux fuel cs
    else c :: stripTCAux fuel cs

/-- Global replacement of a comma followed by optional whitespace and a
closing brace or bracket with that whitespace and closer, scanning left to
right without revisiting replaced text (JavaScript replace semantics). -/
def stripTrailingCommas (cs : List Char) : List Char := stripTCAux cs.length cs

/-- Attempt to match the action-extraction regex (quoted action key,
optional whitespace, colon, optional whitespace, quoted nonempty value)
at the head of the input, returning the captured value. -/
def matchActionAt (cs : List Char) : Option (List Char) :=
  match cs with
  | '"' :: 'a' :: 'c' :: 't' :: 'i' :: 'o' :: 'n' :: '"' :: rest =>
    let r1 := rest.dropWhile isJsWs
    match r1 with
    | ':' :: r2 =>
      let r3 := r2.dropWhile isJsWs
      match r3 with
      | '"' :: r4 =>
        let content := r4.takeWhile (· ≠ '"')
        let r5 := r4.dropWhile (· ≠ '"')
        match content, r5 with
        | [], _ => none
        | _ :: _, '"' :: _ => some content
        | _ :: _, _ => none
      | _ => none
    | _ => none
  | _ => none

/-- Leftmost match of the action-extraction fallback regex. -/
def scanAction : List Char → Option (List Char)
  | [] => none
  | c :: cs =>
    match matchActionAt (c :: cs) with
    | some r => some r
    | none => scanAction cs

/-- The parsed decision record returned by parseDecision: the action
string, a parameter bag, a free-form reasoning value, and an optional
confidence (the code's early returns omit the confidence key). -/
structure Decision where
  action : String
  params : Json
  reasoning : Json
  confidence : Option Json

/-- The wait-shaped decisions parseDecision builds on its recovery paths. -/
def waitDecision (reason reasoningMsg : String) : Decision :=
  { action := "wait"
    params := Json.obj [("reason", Json.str reason)]
    reasoning := Json.str reasoningMsg
    confidence := none }

/-- The JSON candidate substring parseDecision feeds to JSON.parse: the
greedy brace-delimited match with trailing commas stripped. -/
def jsonCandidate (response : String) : Option String :=
  (braceMatchScan response.data).map (fun cs => String.mk (stripTrailingCommas cs))

/-- Body of the outer try of parseDecision, with the rethrown JSON.parse
error surfaced as an Except error. JSON.parse itself is an abstract
parameter jp (an external runtime primitive): an error carries the
exception message, success carries the parsed value. Reading the action
property of a parsed null throws, which the model reproduces. -/
def parseDecisionCore (jp : String → Except String Json) (response : String) :
    Except String Decision :=
  match jsonCandidate response with
  | none => .ok (waitDecision "Invalid response format" "No JSON found in AI response")
  | some jsonStr =>
    match jp jsonStr with
    | .error parseMsg =>
      match scanAction jsonStr.data with
      | some actChars =>
        if String.mk actChars ∈ validActions then
          .ok { action := String.mk actChars
                params := Json.obj []
                reasoning := Json.str "JSON parse error - using extracted action"
                confidence := some (Json.num ⟨false, 5, -1⟩) }
        else .error parseMsg
      | none => .error parseMsg
    | .ok parsed =>
      match parsed with
      | .null => .error "Cannot read properties of null (reading 'action')"
      | p =>
        match p.getField "action" with
        | some (.str a) =>
          if a ∈ validActions then
            .ok { action := a
                  params := jsOrField p "params" (Json.obj [])
                  reasoning := jsOrField p "reasoning" (Json.str "No reasoning provided")
                  confidence := some (jsOrField p "confidence" (Json.num ⟨false, 5, -1⟩)) }
          else
            .ok (waitDecision "Invalid action"
              ("Invalid action: " ++ jsFieldToString (p.getField "action")))
        | other =>
          .ok (waitDecision "Invalid action"
            ("Invalid action: " ++ jsFieldToString other))

/-- X402AIProvider.parseDecision: the outer catch converts any escaping
parse exception into a wait decision, so a Decision is always produced. -/
def parseDecision (jp : String → Except String Json) (response : String) : Decision :=
  match parseDecisionCore jp response with
  | .ok d => d
  | .error msg => waitDecision "Parse error" ("Parse error: " ++ msg)

/- ===================== properties of parseDecision ===================== -/

theorem parseDecisionCore_action_closed (jp : String → Except String Json)
    (response : String) (d : Decision)
    (h : parseDecisionCore jp response = .ok d) : d.action ∈ validActions := by
  unfold parseDecisionCore at h
  split at h
  · cases h
    show ("wait" : String) ∈ validActions
    decide
  · split at h
    · split at h
      · split at h
        · rename_i hmem
          cases h
          simpa using hmem
        · cases h
      · cases h
    · split at h
      · cases h
      · split at h
        · split at h
          · rename_i hmem
            cases h
            simpa using hmem
          · cases h
            show ("wait" : String) ∈ validActions
            decide
        · cases h
          show ("wait" : String) ∈ validActions
          decide

/-- C1: for every model reply string and every behavior of the JSON
runtime parser, parseDecision returns a Decision whose action is a member
of the closed set of valid actions; the embedded catch-all makes it a
total function, so no exception escapes the provider boundary. -/
theorem parseDecision_action_closed (jp : String → Except String Json)
    (response : String) : (parseDecision jp response).action ∈ validActions := by
  unfold parseDecision
  rcases hc : parseDecisionCore jp response with msg | d
  · show ("wait" : String) ∈ validActions
    decide
  · exact parseDecisionCore_action_closed jp response d hc

/- ===================== the extraction stage (C2) ===================== -/

theorem takeToLast_eq_none (c : Char) (xs : List Char) (h : c ∉ xs) :
    takeToLast c xs = none := by
  induction xs with
  | nil => rfl
  | cons x xs ih =>
    have hx : ¬(x = c) := fun he => h (he ▸ List.mem_cons_self x xs)
    have hxs : c ∉ xs := fun hm => h (List.mem_cons_of_mem x hm)
    simp [takeToLast, ih hxs, hx]

theorem takeToLast_spec (c : Char) :
    ∀ (xs : List Char) (m : Nat), xs[m]? = some c →
      (∀ k, m < k → xs[k]? ≠ some c) → takeToLast c xs = some (xs.take (m + 1)) := by
  intro xs
  induction xs with
  | nil => intro m h1 _; simp at h1
  | cons x xs ih =>
    intro m h1 h2
    match m with
    | 0 =>
      simp at h1
      have hnot : c ∉ xs := by
        rw [List.mem_iff_getElem?]
        rintro ⟨k, hk⟩
        exact h2 (k + 1) (Nat.succ_pos k) (by simpa using hk)
      simp [takeToLast, takeToLast_eq_none c xs hnot, h1]
    | m' + 1 =>
      have h1' : xs[m']? = some c := by simpa using h1
      have h2' : ∀ k, m' < k → xs[k]? ≠ some c := by
        intro k hk
        have := h2 (k + 1) (Nat.succ_lt_succ hk)
        simpa using this
      simp [takeToLast, ih m' h1' h2']

theorem braceMatchScan_spec :
    ∀ (cs : List Char) (i j : Nat), cs[i]? = some lbrace →
      (∀ k, k < i → cs[k]? ≠ some lbrace) → cs[j]? = some rbrace →
      (∀ k, j < k → cs[k]? ≠ some rbrace) → i < j →
      braceMatchScan cs = some ((cs.drop i).take (j + 1 - i)) := by
  intro cs
  induction cs with
  | nil => intro i j hi _ _ _ _; simp at hi
  | cons c cs ih =>
    intro i j hi hifirst hj hjlast hij
    match i with
    | 0 =>
      simp at hi
      match j, hij with
      | j' + 1, _ =>
        have hj' : cs[j']? = some rbrace := by simpa using hj
        have hjlast' : ∀ k, j' < k → cs[k]? ≠ some rbrace := by
          intro k hk
          have := hjlast (k + 1) (Nat.succ_lt_succ hk)
          simpa using this
        have htake := takeToLast_spec rbrace cs j' hj' hjlast'
        simp only [braceMatchScan, hi, beq_self_eq_true, if_true, htake, List.drop_zero,
          Nat.sub_zero, List.take_succ_cons]
    | i' + 1 =>
      have hc : ¬(c = lbrace) := by
        have := hifirst 0 (Nat.succ_pos i')
        simpa using this
      have hi' : cs[i']? = some lbrace := by simpa using hi
      have hifirst' : ∀ k, k < i' → cs[k]? ≠ some lbrace := by
        intro k hk
        have := hifirst (k + 1) (Nat.succ_lt_succ hk)
        simpa using this
      match j, hij with
      | j' + 1, hij2 =>
        have hj' : cs[j']? = some rbrace := by simpa using hj
        have hjlast' : ∀ k, j' < k → cs[k]? ≠ some rbrace := by
          intro k hk
          have := hjlast (k + 1) (Nat.succ_lt_succ hk)
          simpa using this
        have hij' : i' < j' := by omega
        have hrec := ih i' j' hi' hifirst' hj' hjlast' hij'
        have hdrop : ((c :: cs).drop (i' + 1)).take (j' + 1 + 1 - (i' + 1)) =
            (cs.drop i').take (j' + 1 - i') := by
          simp only [List.drop_succ_cons]
          congr 1
          omega
        simp only [braceMatchScan, hc]
        rw [if_neg (by simpa using hc)]
        rw [hrec, hdrop]

/-- Spec-side definition, following the spec's words for comparison with
the source's extraction: locate the first top-level brace-delimited object
by balanced-depth scanning from the first opening brace. -/
def firstTopLevelObjectAux : Nat → List Char → List Char → Option (List Char)
  | _, _, [] => none
  | depth, acc, c :: cs =>
    if c == lbrace then firstTopLevelObjectAux (depth + 1) (acc ++ [c]) cs
    else if c == rbrace then
      match depth with
      | 0 => none
      | 1 => some (acc ++ [c])
      | d + 2 => firstTopLevelObjectAux (d + 1) (acc ++ [c]) cs
    else firstTopLevelObjectAux depth (acc ++ [c]) cs

/-- Spec-side definition: the first top-level brace-delimited object of a
text, per the spec's description of the extraction. -/
def firstTopLevelObjectSpec (s : String) : Option String :=
  match s.data.dropWhile (· ≠ lbrace) with
  | [] => none
  | c :: rest => (firstTopLevelObjectAux 1 [c] rest).map String.mk

/-- C2 counterexample: on a reply holding two brace-delimited objects, the
extraction stage of parseDecision (a greedy regex) returns the span from
the first opening brace to the last closing brace, which is not the first
top-level brace-delimited JSON object the claim describes. -/
theorem jsonCandidate_counterexample :
    jsonCandidate "\x7b\"a\":1\x7d \x7b\"b\":2\x7d" =
        some "\x7b\"a\":1\x7d \x7b\"b\":2\x7d" ∧
      firstTopLevelObjectSpec "\x7b\"a\":1\x7d \x7b\"b\":2\x7d" =
        some "\x7b\"a\":1\x7d" ∧
      ("\x7b\"a\":1\x7d \x7b\"b\":2\x7d" : String) ≠ "\x7b\"a\":1\x7d" := by
  exact ⟨by decide, by decide, by decide⟩

/-- C2 amended: whenever the reply has an opening brace before its last
closing brace, the candidate parseDecision feeds to JSON.parse is the span
from the first opening brace through the last closing brace (the regex is
greedy), with trailing commas before a closing brace or bracket stripped. -/
theorem jsonCandidate_greedy_span (r : String) (i j : Nat)
    (hi : r.data[i]? = some lbrace)
    (hifirst : ∀ k, k < i → r.data[k]? ≠ some lbrace)
    (hj : r.data[j]? = some rbrace)
    (hjlast : ∀ k, k < r.data.length → j < k → r.data[k]? ≠ some rbrace)
    (hij : i < j) :
    jsonCandidate r =
      some (String.mk (stripTrailingCommas ((r.data.drop i).take (j + 1 - i)))) := by
  have hjlast' : ∀ k, j < k → r.data[k]? ≠ some rbrace := by
    intro k hk
    by_cases hlen : k < r.data.length
    · exact hjlast k hlen hk
    · intro hcon
      rw [List.getElem?_eq_none (Nat.le_of_not_lt hlen)] at hcon
      cases hcon
  unfold jsonCandidate
  rw [braceMatchScan_spec r.data i j hi hifirst hj hjlast' hij]
  rfl

/-- Witness for the amended C2 statement at a concrete reply. -/
theorem jsonCandidate_greedy_span_witness :
    jsonCandidate "a\x7bb\x7dc\x7d" =
      some (String.mk (stripTrailingCommas (("a\x7bb\x7dc\x7d".data.drop 1).take (5 + 1 - 1)))) :=
  jsonCandidate_greedy_span "a\x7bb\x7dc\x7d" 1 5 (by decide)
    (by decide) (by decide) (by decide) (by decide)

/- ===================== parseFloat and amount conversion ===================== -/

/-- Value of a run of decimal digits. -/
def digitsVal (ds : List Char) : Nat := ds.foldl (fun a c => a * 10 + (c.toNat - 48)) 0

/-- Optional exponent part of a parseFloat literal; an exponent marker
without digits contributes nothing (the longest valid prefix ends before
it). -/
def parseExpPart (r : List Char) : Int :=
  let (eneg, r1) : Bool × List Char :=
    match r with
    | '-' :: t => (true, t)
    | '+' :: t => (false, t)
    | t => (false, t)
  let ed := r1.takeWhile Char.isDigit
  if ed.isEmpty then 0
  else if eneg then -(digitsVal ed : Int) else (digitsVal ed : Int)

/-- Model of parseFloat: skip leading whitespace, optional sign, then the
longest prefix of the shape digits, optional point and digits, optional
exponent; none models NaN (no digit found). Values are exact scaled
decimals; the Infinity literal and double rounding are not modelled. -/
def parseFloatJs (s : String) : Option JsNum :=
  let cs := s.data.dropWhile isJsWs
  let (neg, cs1) : Bool × List Char :=
    match cs with
    | '-' :: r => (true, r)
    | '+' :: r => (false, r)
    | r => (false, r)
  let ip := cs1.takeWhile Char.isDigit
  let cs2 := cs1.dropWhile Char.isDigit
  let (fp, cs3) : List Char × List Char :=
    match cs2 with
    | '.' :: r => (r.takeWhile Char.isDigit, r.dropWhile Char.isDigit)
    | r => ([], r)
  if ip.isEmpty ∧ fp.isEmpty then none
  else
    let expAdj : Int :=
      match cs3 with
      | 'e' :: r => parseExpPart r
      | 'E' :: r => parseExpPart r
      | _ => 0
    some ⟨neg, digitsVal (ip ++ fp), expAdj - fp.length⟩

/-- The strict-negativity test applied to a parsed amount (negative zero
is not below zero). -/
def jsNumIsNeg (n : JsNum) : Bool := n.neg && n.digits != 0

/-- Exact integer floor of a scaled-decimal value multiplied by 10 ^ k,
the embedding of Math.floor of the amount times a decimal unit factor. -/
def mulPow10Floor (n : JsNum) (k : Nat) : Int :=
  let e : Int := n.expo + k
  if 0 ≤ e then
    let v : Nat := n.digits * 10 ^ e.toNat
    if n.neg then -(v : Int) else (v : Int)
  else
    let m : Nat := (-e).toNat
    if n.neg then -(((n.digits + 10 ^ m - 1) / 10 ^ m : Nat) : Int)
    else ((n.digits / 10 ^ m : Nat) : Int)

/- ===================== runner data model ===================== -/

/-- The configuration fields of AgentConfig the dispatcher and cycle use.
maxPositionSizeUSDC is a required field holding atomic units; the optional
fields default inside the code. -/
structure AgentConfig where
  maxPositions : Option Nat
  maxPositionSizeUSDC : Nat
  minBalanceUSDC : Option Nat
deriving DecidableEq

/-- One tracked position, as pushed by a successful buy. The first
runner variant omits the status field; it is carried here uniformly and
set to open at creation. -/
structure AgentPosition where
  tokenAddress : String
  tokenAmount : String
  usdcInvested : String
  entryPrice : String
  entryTime : Nat
  status : String
deriving DecidableEq

/-- The mutable runner state the dispatcher touches. Balances are atomic
units (BigInt decimal strings in the source, canonical by construction). -/
structure AgentState where
  balance : Nat
  positions : List AgentPosition
  launchedTokens : List String
deriving DecidableEq

/-- The execution mode selected on the client. -/
inductive ExecMode where
  | gasless : ExecMode
  | selfExecute : ExecMode
deriving DecidableEq

/-- One outbound call to the trading client, recorded as a trace. -/
inductive ClientCall where
  | buyCall (tokenAddress usdcAmount : String)
  | buySelfExecCall (tokenAddress usdcAmount : String)
  | sellCall (tokenAddress tokenAmount : String)
  | sellSelfExecCall (tokenAddress tokenAmount : String)
  | launchCall (name ticker description : String)
  | tokenInfoCall (tokenAddress : String)
  | discoverCall : ClientCall
deriving DecidableEq

/-- Successful gasless buy payload fields the runner reads. -/
structure BuyResp where
  tokenAmount : String
  usdcPaid : String
  averagePricePerToken : String
deriving DecidableEq

/-- Successful gasless sell payload fields the runner reads. -/
structure SellResp where
  usdcReceived : String
deriving DecidableEq

/-- Successful launch payload fields the runner reads. -/
structure LaunchResp where
  tokenAddress : String
deriving DecidableEq

/-- The trading platform as a script of responses, one per operation kind;
an error models a thrown client exception. -/
structure Platform where
  buy : String → String → Except String BuyResp
  buySelfExec : String → String → Except String String
  sell : String → String → Except String SellResp
  sellSelfExec : String → String → Except String String
  launch : String → String → String → Except String LaunchResp
  tokenInfo : String → Except String Json
  discover : Except String (List Json)

/- ===================== ticker validation and encoding ===================== -/

/-- Characters admitted by the ticker pattern of uppercase letters and
digits. -/
def isTickerChar (c : Char) : Bool :=
  (65 ≤ c.toNat && c.toNat ≤ 90) || (48 ≤ c.toNat && c.toNat ≤ 57)

/-- The ticker validation of launchToken: 3 to 10 uppercase alphanumeric
characters. -/
def isValidTicker (s : String) : Bool :=
  3 ≤ s.length && s.length ≤ 10 && s.data.all isTickerChar

/-- The invalid-ticker exception message of launchToken. -/
def invalidTickerMsg (t : String) : String :=
  "Invalid ticker: " ++ t ++ ". Must be 3-10 uppercase letters or numbers."

/-- Uppercase hexadecimal digit. -/
def hexDigitChar (n : Nat) : Char :=
  if n < 10 then Char.ofNat (48 + n) else Char.ofNat (55 + n)

/-- Characters encodeURIComponent leaves unescaped: ASCII alphanumerics
and the marks minus, underscore, point, bang, tilde, star, apostrophe and
parentheses (listed by character code). -/
def isUriUnreserved (c : Char) : Bool :=
  (65 ≤ c.toNat && c.toNat ≤ 90) || (97 ≤ c.toNat && c.toNat ≤ 122) ||
    (48 ≤ c.toNat && c.toNat ≤ 57) ||
    [45, 95, 46, 33, 126, 42, 39, 40, 41].contains c.toNat

/-- Percent-encoding of one character via its UTF-8 bytes. -/
def percentEncodeChar (c : Char) : String :=
  if isUriUnreserved c then String.mk [c]
  else
    String.join ((String.mk [c]).toUTF8.toList.map
      (fun b => "%" ++ String.mk [hexDigitChar (b.toNat / 16), hexDigitChar (b.toNat % 16)]))

/-- Model of encodeURIComponent. -/
def encodeURIComponentJs (s : String) : String :=
  String.join (s.data.map percentEncodeChar)

/- ===================== the execution dispatcher ===================== -/

/-- Outcome record of one dispatch, the shape executeDecision returns. -/
structure DispatchOutcome where
  success : Bool
  error : Option String
deriving DecidableEq

/-- Position limit with its falsy-default of five. -/
def maxPositionsOf (cfg : AgentConfig) : Nat :=
  match cfg.maxPositions with
  | some n => if n = 0 then 5 else n
  | none => 5

/-- The position-limit rejection message, which interpolates the raw
configured value. -/
def maxPositionsMsg (cfg : AgentConfig) : String :=
  "Maximum positions reached (" ++
    (match cfg.maxPositions with
     | some n => toString n
     | none => "undefined") ++ "). Sell existing positions first."

/-- The max-position-size clamp of the second dispatcher variant. -/
def buyAmountClamped (cfg : AgentConfig) (atomic : Nat) : Nat :=
  if atomic > cfg.maxPositionSizeUSDC then cfg.maxPositionSizeUSDC else atomic

/-- FIFO removal on a sell: splice out the first (oldest) position whose
lower-cased address matches; keep the list unchanged when none does. -/
def removeFirstMatch (ps : List AgentPosition) (target : String) : List AgentPosition :=
  match ps.findIdx? (fun p => jsToLower p.tokenAddress == target) with
  | some idx => ps.eraseIdx idx
  | none => ps

/-- The launchToken client method: upper-case the ticker, validate it
before any request, then submit; the returned trace lists the requests
actually issued. -/
def launchTokenModel (plat : Platform) (name ticker description : String)
    (initialSupply : Option String) :
    Except String LaunchResp × List ClientCall :=
  let t := jsToUpper ticker
  if isValidTicker t then
    let _supply :=
      match initialSupply with
      | some s => if s.isEmpty then "10000000000000000000000000" else s
      | none => "10000000000000000000000000"
    (plat.launch name t description, [ClientCall.launchCall name t description])
  else (.error (invalidTickerMsg t), [])

/-- The display form of the description inside the missing-launch-params
message, including the TypeError a substring call on a non-string truthy
value raises. -/
def launchDescDisplay (descV : Option Json) : Except String String :=
  match descV with
  | none => .ok "undefined"
  | some (.str s) => .ok (String.mk (s.data.take 20))
  | some .null => .ok "null"
  | some _ => .error "decision.params.description.substring is not a function"

/-- The buy arm of the second executeDecision variant (the one with the
max-position-size clamp). -/
def buyArm (cfg : AgentConfig) (plat : Platform) (mode : ExecMode) (now : Nat)
    (st : AgentState) (decision : Decision) :
    DispatchOutcome × AgentState × List ClientCall :=
    match truthyField decision.params "tokenAddress",
        truthyField decision.params "usdcAmount" with
    | some ta, some ua =>
      match ta with
      | .str taStr =>
        if st.positions.length ≥ maxPositionsOf cfg then
          (⟨false, some (maxPositionsMsg cfg)⟩, st, [])
        else
          let usdcAmountStr0 := jsToString ua
          match parseFloatJs usdcAmountStr0 with
          | none =>
            (⟨false, some ("Invalid usdcAmount format: " ++ usdcAmountStr0)⟩, st, [])
          | some q =>
            if jsNumIsNeg q then
              (⟨false, some ("Invalid usdcAmount format: " ++ usdcAmountStr0)⟩, st, [])
            else
              let atomic : Nat := (mulPow10Floor q 6).toNat
              let buyAmount := buyAmountClamped cfg atomic
              let usdcAmountStr := toString buyAmount
              if buyAmount > st.balance then
                (⟨false, some ("Insufficient balance: trying to buy " ++
                  toString buyAmount ++ " but only have " ++ toString st.balance)⟩, st, [])
              else
                match mode with
                | .gasless =>
                  match plat.buy taStr usdcAmountStr with
                  | .ok resp =>
                    (⟨true, none⟩,
                     { st with positions := st.positions ++
                         [⟨taStr, resp.tokenAmount, resp.usdcPaid,
                           resp.averagePricePerToken, now, "open"⟩] },
                     [ClientCall.buyCall taStr usdcAmountStr])
                  | .error e =>
                    (⟨false, some e⟩, st, [ClientCall.buyCall taStr usdcAmountStr])
                | .selfExecute =>
                  match plat.buySelfExec taStr usdcAmountStr with
                  | .ok _tx =>
                    (⟨true, none⟩,
                     { st with positions := st.positions ++
                         [⟨taStr, "0", usdcAmountStr, "0", now, "open"⟩] },
                     [ClientCall.buySelfExecCall taStr usdcAmountStr])
                  | .error e =>
                    (⟨false, some e⟩, st, [ClientCall.buySelfExecCall taStr usdcAmountStr])
      | _ =>
        (⟨false, some "decision.params.tokenAddress.toLowerCase is not a function"⟩, st, [])
    | _, _ => (⟨false, some "Missing buy parameters"⟩, st, [])

/-- The sell arm of executeDecision, with the FIFO position removal on
success. -/
def sellArm (plat : Platform) (mode : ExecMode)
    (st : AgentState) (decision : Decision) :
    DispatchOutcome × AgentState × List ClientCall :=
    match truthyField decision.params "tokenAddress",
        truthyField decision.params "tokenAmount" with
    | some ta, some ua =>
      match ta with
      | .str taStr =>
        let sellTokenAddress := jsToLower taStr
        let tokenAmountStr0 := jsToString ua
        match parseFloatJs tokenAmountStr0 with
        | none =>
          (⟨false, some ("Invalid tokenAmount format: " ++ tokenAmountStr0)⟩, st, [])
        | some q =>
          if jsNumIsNeg q then
            (⟨false, some ("Invalid tokenAmount format: " ++ tokenAmountStr0)⟩, st, [])
          else
            let atomic : Nat := (mulPow10Floor q 18).toNat
            let tokenAmountStr := toString atomic
            match mode with
            | .gasless =>
              match plat.sell taStr tokenAmountStr with
              | .ok _resp =>
                (⟨true, none⟩,
                 { st with positions := removeFirstMatch st.positions sellTokenAddress },
                 [ClientCall.sellCall taStr tokenAmountStr])
              | .error e =>
                (⟨false, some e⟩, st, [ClientCall.sellCall taStr tokenAmountStr])
            | .selfExecute =>
              match plat.sellSelfExec taStr tokenAmountStr with
              | .ok _tx =>
                (⟨true, none⟩,
                 { st with positions := removeFirstMatch st.positions sellTokenAddress },
                 [ClientCall.sellSelfExecCall taStr tokenAmountStr])
              | .error e =>
                (⟨false, some e⟩, st, [ClientCall.sellSelfExecCall taStr tokenAmountStr])
      | _ =>
        (⟨false, some "decision.params.tokenAddress.toLowerCase is not a function"⟩, st, [])
    | _, _ => (⟨false, some "Missing sell parameters"⟩, st, [])

/-- The launch arm of executeDecision, with the symbol-key fallback and
the launched-token ring update. -/
def launchArm (plat : Platform)
    (st : AgentState) (decision : Decision) :
    DispatchOutcome × AgentState × List ClientCall :=
    let tickerVal : Option Json :=
      match truthyField decision.params "ticker" with
      | some v => some v
      | none => decision.params.getField "symbol"
    let tickerTruthy : Option Json :=
      match tickerVal with
      | some v => if jsTruthy v then some v else none
      | none => none
    match truthyField decision.params "name", tickerTruthy,
        truthyField decision.params "description" with
    | some nameV, some tickV, some descV =>
      match tickV with
      | .str tickS =>
        let image : String :=
          match truthyField decision.params "image" with
          | some img => jsToString img
          | none => "https://via.placeholder.com/400/000000/FFFFFF?text=" ++
              encodeURIComponentJs (jsFieldToString (decision.params.getField "ticker"))
        let initialSupply : Option String :=
          (decision.params.getField "initialSupply").map jsToString
        let _ := image
        match launchTokenModel plat (jsToString nameV) (jsToUpper tickS)
            (jsToString descV) initialSupply with
        | (.ok r, calls) =>
          if r.tokenAddress.isEmpty then (⟨true, none⟩, st, calls)
          else
            let pushed := st.launchedTokens ++ [jsToLower r.tokenAddress]
            let kept := if pushed.length > 10 then pushed.drop 1 else pushed
            (⟨true, none⟩, { st with launchedTokens := kept }, calls)
        | (.error e, calls) => (⟨false, some e⟩, st, calls)
      | _ =>
        (⟨false, some "ticker.toUpperCase is not a function"⟩, st, [])
    | _, _, _ =>
      let msg :=
        match launchDescDisplay (decision.params.getField "description") with
        | .ok d =>
          "Missing launch parameters. Got: name=" ++
            jsFieldToString (decision.params.getField "name") ++
            ", ticker=" ++ jsFieldToString tickerVal ++ ", description=" ++ d
        | .error te => te
      (⟨false, some msg⟩, st, [])

/-- The analyze arm of executeDecision: a read-only token-info fetch. -/
def analyzeArm (plat : Platform) (st : AgentState) (decision : Decision) :
    DispatchOutcome × AgentState × List ClientCall :=
    match truthyField decision.params "tokenAddress" with
    | some v =>
      let addr := jsToString v
      match plat.tokenInfo addr with
      | .ok _info => (⟨true, none⟩, st, [ClientCall.tokenInfoCall addr])
      | .error e => (⟨false, some e⟩, st, [ClientCall.tokenInfoCall addr])
    | none => (⟨false, some "Missing token address"⟩, st, [])

/-- AgentRunner.executeDecision, second variant (the one with the
max-position-size clamp): dispatches on the decision's action, the
discover and wait cases and the default being successful no-ops; every
thrown error inside an arm is converted into a failed outcome. Returns
the outcome, the new state and the trace of client calls issued. -/
def executeDecision (cfg : AgentConfig) (plat : Platform) (mode : ExecMode) (now : Nat)
    (st : AgentState) (decision : Decision) :
    DispatchOutcome × AgentState × List ClientCall :=
  if decision.action = "buy" then buyArm cfg plat mode now st decision
  else if decision.action = "sell" then sellArm plat mode st decision
  else if decision.action = "launch" then launchArm plat st decision
  else if decision.action = "analyze" then analyzeArm plat st decision
  else (⟨true, none⟩, st, [])

/-- The buy arm of the first executeDecision variant in agent-runner.ts:
identical to the second variant's buy arm except that no max-position-size
clamp is applied (the converted amount is checked against the balance and
dispatched unmodified). -/
def executeDecisionBuyV1 (cfg : AgentConfig) (plat : Platform) (mode : ExecMode)
    (now : Nat) (st : AgentState) (decision : Decision) :
    DispatchOutcome × AgentState × List ClientCall :=
  match truthyField decision.params "tokenAddress",
      truthyField decision.params "usdcAmount" with
  | some ta, some ua =>
    match ta with
    | .str taStr =>
      if st.positions.length ≥ maxPositionsOf cfg then
        (⟨false, some (maxPositionsMsg cfg)⟩, st, [])
      else
        let usdcAmountStr0 := jsToString ua
        match parseFloatJs usdcAmountStr0 with
        | none =>
          (⟨false, some ("Invalid usdcAmount format: " ++ usdcAmountStr0)⟩, st, [])
        | some q =>
          if jsNumIsNeg q then
            (⟨false, some ("Invalid usdcAmount format: " ++ usdcAmountStr0)⟩, st, [])
          else
            let atomic : Nat := (mulPow10Floor q 6).toNat
            let usdcAmountStr := toString atomic
            if atomic > st.balance then
              (⟨false, some ("Insufficient balance: trying to buy " ++
                toString atomic ++ " but only have " ++ toString st.balance)⟩, st, [])
            else
              match mode with
              | .gasless =>
                match plat.buy taStr usdcAmountStr with
                | .ok resp =>
                  (⟨true, none⟩,
                   { st with positions := st.positions ++
                       [⟨taStr, resp.tokenAmount, resp.usdcPaid,
                         resp.averagePricePerToken, now, "open"⟩] },
                   [ClientCall.buyCall taStr usdcAmountStr])
                | .error e =>
                  (⟨false, some e⟩, st, [ClientCall.buyCall taStr usdcAmountStr])
              | .selfExecute =>
                match plat.buySelfExec taStr usdcAmountStr with
                | .ok _tx =>
                  (⟨true, none⟩,
                   { st with positions := st.positions ++
                       [⟨taStr, "0", usdcAmountStr, "0", now, "open"⟩] },
                   [ClientCall.buySelfExecCall taStr usdcAmountStr])
                | .error e =>
                  (⟨false, some e⟩, st, [ClientCall.buySelfExecCall taStr usdcAmountStr])
    | _ =>
      (⟨false, some "decision.params.tokenAddress.toLowerCase is not a function"⟩, st, [])
  | _, _ => (⟨false, some "Missing buy parameters"⟩, st, [])

/- ===================== dispatcher lemmas ===================== -/

theorem jsTruthy_str (s : String) (h : s ≠ "") : jsTruthy (Json.str s) = true := by
  simp only [jsTruthy, Bool.not_eq_true']
  cases he : s.isEmpty with
  | false => rfl
  | true => exact absurd ((String.isEmpty_iff s).mp he) h

theorem toNat_ofNat_small (n : Nat) (h : n < 55296) : (Char.ofNat n).toNat = n := by
  rw [Char.ofNat, dif_pos (Or.inl h)]
  rfl

theorem jsUpperChar_idem (c : Char) : jsUpperChar (jsUpperChar c) = jsUpperChar c := by
  unfold jsUpperChar
  by_cases h : 97 ≤ c.toNat ∧ c.toNat ≤ 122
  · rw [if_pos h]
    have ht : (Char.ofNat (c.toNat - 32)).toNat = c.toNat - 32 :=
      toNat_ofNat_small _ (by omega)
    have hcond : ¬(97 ≤ (Char.ofNat (c.toNat - 32)).toNat ∧
        (Char.ofNat (c.toNat - 32)).toNat ≤ 122) := by
      rw [ht]; omega
    rw [if_neg hcond]
  · rw [if_neg h, if_neg h]

theorem jsToUpper_idem (s : String) : jsToUpper (jsToUpper s) = jsToUpper s := by
  unfold jsToUpper
  simp only [List.map_map]
  congr 1
  exact List.map_congr_left fun c _ => jsUpperChar_idem c

/-- Field lookup on the two-key parameter object used by buy and sell
decisions. -/
theorem truthyField_pair_fst (k1 k2 : String) (s1 s2 : String) (h1 : s1 ≠ "") :
    truthyField (Json.obj [(k1, Json.str s1), (k2, Json.str s2)]) k1 =
      some (Json.str s1) := by
  simp [truthyField, Json.getField, List.lookup, jsTruthy_str s1 h1, beq_self_eq_true]

theorem truthyField_pair_snd (k1 k2 : String) (s1 s2 : String) (h2 : s2 ≠ "")
    (hne : k1 ≠ k2) :
    truthyField (Json.obj [(k1, Json.str s1), (k2, Json.str s2)]) k2 =
      some (Json.str s2) := by
  have : (k2 == k1) = false := by
    simp only [beq_eq_false_iff_ne, ne_eq]
    exact fun he => hne he.symm
  simp [truthyField, Json.getField, List.lookup, this, jsTruthy_str s2 h2]

/- ===================== C3: the buy clamp ===================== -/

/-- The concrete platform script used by the witnesses: every operation
succeeds with a fixed payload. -/
def scriptPlatform : Platform :=
  { buy := fun _ _ => .ok ⟨"1000", "5000000", "5"⟩
    buySelfExec := fun _ _ => .ok "0xtx"
    sell := fun _ _ => .ok ⟨"100"⟩
    sellSelfExec := fun _ _ => .ok "0xtx"
    launch := fun _ _ _ => .ok ⟨"0xNEW"⟩
    tokenInfo := fun _ => .ok Json.null
    discover := .ok [] }

/-- The buy decision record with string parameters, the parameter format
the spec prescribes. -/
def buyDecision (ta amt : String) : Decision :=
  ⟨"buy", Json.obj [("tokenAddress", Json.str ta), ("usdcAmount", Json.str amt)],
    Json.str "", none⟩

/-- C3 counterexample: the first dispatcher variant applies no clamp: a
buy of 5 USDC (5000000 atomic units after conversion) under a configured
max-position-size of 1000000 dispatches 5000000 to the trading client,
not the configured maximum. -/
theorem buyV1_unclamped_counterexample :
    parseFloatJs "5.0" = some ⟨false, 50, -1⟩ ∧
      mulPow10Floor ⟨false, 50, -1⟩ 6 = 5000000 ∧
      (1000000 : Nat) < 5000000 ∧
      (executeDecisionBuyV1 ⟨some 5, 1000000, some 10000⟩ scriptPlatform
          ExecMode.gasless 0 ⟨10000000, [], []⟩ (buyDecision "0xT" "5.0")).2.2 =
        [ClientCall.buyCall "0xT" "5000000"] ∧
      ("5000000" : String) ≠ "1000000" := by
  exact ⟨by decide, by decide, by decide, by decide, by decide⟩

/-- C3 amended: in the second dispatcher variant a buy whose converted
atomic amount exceeds the configured max-position-size dispatches exactly
the max-position-size to the trading client (in either execution mode);
the first variant dispatches the converted amount unclamped. -/
theorem buy_clamped_exact (cfg : AgentConfig) (plat : Platform) (mode : ExecMode)
    (now : Nat) (st : AgentState) (ta amt : String) (q : JsNum)
    (hta : ta ≠ "") (hamt : amt ≠ "")
    (hq : parseFloatJs amt = some q) (hneg : jsNumIsNeg q = false)
    (hover : cfg.maxPositionSizeUSDC < (mulPow10Floor q 6).toNat)
    (hlimit : st.positions.length < maxPositionsOf cfg)
    (hbal : cfg.maxPositionSizeUSDC ≤ st.balance) :
    (executeDecision cfg plat mode now st (buyDecision ta amt)).2.2 =
      [match mode with
       | .gasless => ClientCall.buyCall ta (toString cfg.maxPositionSizeUSDC)
       | .selfExecute => ClientCall.buySelfExecCall ta (toString cfg.maxPositionSizeUSDC)] := by
  have h1 := truthyField_pair_fst "tokenAddress" "usdcAmount" ta amt hta
  have h2 := truthyField_pair_snd "tokenAddress" "usdcAmount" ta amt hamt (by decide)
  have hclamp : buyAmountClamped cfg (mulPow10Floor q 6).toNat = cfg.maxPositionSizeUSDC := by
    unfold buyAmountClamped
    rw [if_pos hover]
  show (buyArm cfg plat mode now st (buyDecision ta amt)).2.2 = _
  unfold buyArm
  simp only [buyDecision, h1, h2, jsToString, hq, hneg, Bool.false_eq_true, if_false,
    if_neg (Nat.not_le.mpr hlimit), hclamp, if_neg (Nat.not_lt.mpr hbal)]
  cases mode with
  | gasless =>
    cases plat.buy ta (toString cfg.maxPositionSizeUSDC) <;> rfl
  | selfExecute =>
    cases plat.buySelfExec ta (toString cfg.maxPositionSizeUSDC) <;> rfl

/-- Witness for the amended C3 statement at a concrete over-limit buy. -/
theorem buy_clamped_exact_witness :
    (executeDecision ⟨some 5, 1000000, some 10000⟩ scriptPlatform ExecMode.gasless 0
        ⟨10000000, [], []⟩ (buyDecision "0xT" "5.0")).2.2 =
      [ClientCall.buyCall "0xT" "1000000"] := by
  have h := buy_clamped_exact ⟨some 5, 1000000, some 10000⟩ scriptPlatform
    ExecMode.gasless 0 ⟨10000000, [], []⟩ "0xT" "5.0" ⟨false, 50, -1⟩
    (by decide) (by decide) (by decide) (by decide) (by decide) (by decide) (by decide)
  exact h

/- ===================== C4: FIFO position removal on sell ===================== -/

/-- The sell decision record with string parameters. -/
def sellDecision (ta amt : String) : Decision :=
  ⟨"sell", Json.obj [("tokenAddress", Json.str ta), ("tokenAmount", Json.str amt)],
    Json.str "", none⟩

theorem removeFirstMatch_no_match (ps : List AgentPosition) (target : String)
    (h : ∀ p ∈ ps, jsToLower p.tokenAddress ≠ target) :
    removeFirstMatch ps target = ps := by
  unfold removeFirstMatch
  have hn : ps.findIdx? (fun p => jsToLower p.tokenAddress == target) = none := by
    rw [List.findIdx?_eq_none_iff]
    intro p hp
    simpa using h p hp
  rw [hn]

theorem removeFirstMatch_first (ps : List AgentPosition) (target : String) (i : Nat)
    (hi : i < ps.length)
    (hmatch : jsToLower (ps.get ⟨i, hi⟩).tokenAddress = target)
    (hfirst : ∀ k (hk : k < ps.length), k < i →
      jsToLower (ps.get ⟨k, hk⟩).tokenAddress ≠ target) :
    removeFirstMatch ps target = ps.eraseIdx i := by
  unfold removeFirstMatch
  have hs : ps.findIdx? (fun p => jsToLower p.tokenAddress == target) = some i := by
    rw [List.findIdx?_eq_some_iff_getElem]
    refine ⟨hi, by simpa using hmatch, ?_⟩
    intro j hj
    have := hfirst j (Nat.lt_trans hj hi) hj
    simpa using this
  rw [hs]

/-- C4: a sell whose platform call succeeds reports success and replaces
the position list by the FIFO removal for the sold asset; the removal
deletes the least-index matching position, which has minimal entry time
among the matches whenever the list is ordered by creation time, and is a
no-op leaving the list unchanged (while the dispatch still succeeds) when
no position matches. -/
theorem sell_removes_fifo (cfg : AgentConfig) (plat : Platform) (mode : ExecMode)
    (now : Nat) (st : AgentState) (ta amt : String) (q : JsNum)
    (resp : SellResp) (tx : String)
    (hta : ta ≠ "") (hamt : amt ≠ "")
    (hq : parseFloatJs amt = some q) (hneg : jsNumIsNeg q = false)
    (hokG : plat.sell ta (toString (mulPow10Floor q 18).toNat) = .ok resp)
    (hokS : plat.sellSelfExec ta (toString (mulPow10Floor q 18).toNat) = .ok tx) :
    (executeDecision cfg plat mode now st (sellDecision ta amt)).1.success = true ∧
    (executeDecision cfg plat mode now st (sellDecision ta amt)).2.1.positions =
      removeFirstMatch st.positions (jsToLower ta) ∧
    ((∀ p ∈ st.positions, jsToLower p.tokenAddress ≠ jsToLower ta) →
      (executeDecision cfg plat mode now st (sellDecision ta amt)).2.1.positions =
        st.positions) ∧
    (∀ i (hi : i < st.positions.length),
      jsToLower (st.positions.get ⟨i, hi⟩).tokenAddress = jsToLower ta →
      (∀ k (hk : k < st.positions.length), k < i →
        jsToLower (st.positions.get ⟨k, hk⟩).tokenAddress ≠ jsToLower ta) →
      (executeDecision cfg plat mode now st (sellDecision ta amt)).2.1.positions =
          st.positions.eraseIdx i ∧
        (List.Pairwise (fun a b => a.entryTime ≤ b.entryTime) st.positions →
          ∀ j (hj : j < st.positions.length),
            jsToLower (st.positions.get ⟨j, hj⟩).tokenAddress = jsToLower ta →
            (st.positions.get ⟨i, hi⟩).entryTime ≤
              (st.positions.get ⟨j, hj⟩).entryTime)) := by
  have h1 := truthyField_pair_fst "tokenAddress" "tokenAmount" ta amt hta
  have h2 := truthyField_pair_snd "tokenAddress" "tokenAmount" ta amt hamt (by decide)
  have hmain : (executeDecision cfg plat mode now st (sellDecision ta amt)).1.success = true ∧
      (executeDecision cfg plat mode now st (sellDecision ta amt)).2.1.positions =
        removeFirstMatch st.positions (jsToLower ta) := by
    show (sellArm plat mode st (sellDecision ta amt)).1.success = true ∧
      (sellArm plat mode st (sellDecision ta amt)).2.1.positions = _
    unfold sellArm
    simp only [sellDecision, h1, h2, jsToString, hq, hneg, Bool.false_eq_true, if_false]
    cases mode with
    | gasless => rw [hokG]; exact ⟨rfl, rfl⟩
    | selfExecute => rw [hokS]; exact ⟨rfl, rfl⟩
  refine ⟨hmain.1, hmain.2, ?_, ?_⟩
  · intro hno
    rw [hmain.2, removeFirstMatch_no_match st.positions (jsToLower ta) hno]
  · intro i hi hm hf
    constructor
    · rw [hmain.2, removeFirstMatch_first st.positions (jsToLower ta) i hi hm hf]
    · intro hsorted j hj hjm
      rcases Nat.lt_trichotomy i j with hij | hij | hij
      · exact (List.pairwise_iff_get.mp hsorted) ⟨i, hi⟩ ⟨j, hj⟩ hij
      · subst hij
        exact Nat.le_refl _
      · exact absurd hjm (hf j hj hij)

/-- Witness for C4: with two positions tracked for the same asset (entry
times 1 and 2) and one for another asset, a sell of that asset succeeds
and removes exactly the earliest-created matching position; the removal
function applied to a list with no match is the identity. -/
theorem sell_removes_fifo_witness :
    (executeDecision ⟨some 5, 1000000, some 10000⟩ scriptPlatform ExecMode.gasless 9
        ⟨10000000, [⟨"0xAA", "1", "1", "1", 1, "open"⟩, ⟨"0xaa", "2", "2", "2", 2, "open"⟩,
          ⟨"0xBB", "3", "3", "3", 3, "open"⟩], []⟩
        (sellDecision "0xAa" "1.5")).1.success = true ∧
      (executeDecision ⟨some 5, 1000000, some 10000⟩ scriptPlatform ExecMode.gasless 9
          ⟨10000000, [⟨"0xAA", "1", "1", "1", 1, "open"⟩, ⟨"0xaa", "2", "2", "2", 2, "open"⟩,
            ⟨"0xBB", "3", "3", "3", 3, "open"⟩], []⟩
          (sellDecision "0xAa" "1.5")).2.1.positions =
        [⟨"0xaa", "2", "2", "2", 2, "open"⟩, ⟨"0xBB", "3", "3", "3", 3, "open"⟩] := by
  have h := sell_removes_fifo ⟨some 5, 1000000, some 10000⟩ scriptPlatform ExecMode.gasless 9
    ⟨10000000, [⟨"0xAA", "1", "1", "1", 1, "open"⟩, ⟨"0xaa", "2", "2", "2", 2, "open"⟩,
      ⟨"0xBB", "3", "3", "3", 3, "open"⟩], []⟩
    "0xAa" "1.5" ⟨false, 15, -1⟩ ⟨"100"⟩ "0xtx"
    (by decide) (by decide) (by decide) (by decide) (by rfl) (by rfl)
  refine ⟨h.1, h.2.1.trans (by decide)⟩

/- ===================== C7: ticker validation before launch ===================== -/

/-- The launch decision record with string parameters. -/
def launchDecision (nameS tickS descS : String) : Decision :=
  ⟨"launch", Json.obj [("name", Json.str nameS), ("ticker", Json.str tickS),
    ("description", Json.str descS)], Json.str "", none⟩

/-- C7: a launch decision whose ticker is not, after upper-casing, a
string of 3 to 10 alphanumeric characters yields a failed outcome carrying
the invalid-ticker validation error, sends no request to the trading
platform, and leaves the state unchanged. -/
theorem launch_invalid_ticker (cfg : AgentConfig) (plat : Platform) (mode : ExecMode)
    (now : Nat) (st : AgentState) (nameS tickS descS : String)
    (hname : nameS ≠ "") (htick : tickS ≠ "") (hdesc : descS ≠ "")
    (hinv : isValidTicker (jsToUpper tickS) = false) :
    (executeDecision cfg plat mode now st (launchDecision nameS tickS descS)).1.success =
        false ∧
      (executeDecision cfg plat mode now st (launchDecision nameS tickS descS)).2.2 = [] ∧
      (executeDecision cfg plat mode now st (launchDecision nameS tickS descS)).2.1 = st ∧
      (executeDecision cfg plat mode now st (launchDecision nameS tickS descS)).1.error =
        some (invalidTickerMsg (jsToUpper tickS)) := by
  have hn : truthyField (launchDecision nameS tickS descS).params "name" =
      some (Json.str nameS) := by
    simp [launchDecision, truthyField, Json.getField, List.lookup, jsTruthy_str nameS hname]
  have htk : truthyField (launchDecision nameS tickS descS).params "ticker" =
      some (Json.str tickS) := by
    simp [launchDecision, truthyField, Json.getField, List.lookup, jsTruthy_str tickS htick]
  have hd : truthyField (launchDecision nameS tickS descS).params "description" =
      some (Json.str descS) := by
    simp [launchDecision, truthyField, Json.getField, List.lookup, jsTruthy_str descS hdesc]
  show (launchArm plat st (launchDecision nameS tickS descS)).1.success = false ∧
    (launchArm plat st (launchDecision nameS tickS descS)).2.2 = [] ∧
    (launchArm plat st (launchDecision nameS tickS descS)).2.1 = st ∧
    (launchArm plat st (launchDecision nameS tickS descS)).1.error =
      some (invalidTickerMsg (jsToUpper tickS))
  unfold launchArm
  simp only [htk, hn, hd, jsTruthy_str tickS htick, if_true, launchTokenModel,
    jsToUpper_idem, hinv, Bool.false_eq_true, if_false]
  exact ⟨trivial, trivial, trivial, trivial⟩

/-- Witness for C7 at the two-character ticker of the spec's scenario. -/
theorem launch_invalid_ticker_witness :
    (executeDecision ⟨some 5, 1000000, some 10000⟩ scriptPlatform ExecMode.gasless 0
        ⟨10000000, [], []⟩ (launchDecision "Tok" "ab" "d")).2.2 = [] ∧
      (executeDecision ⟨some 5, 1000000, some 10000⟩ scriptPlatform ExecMode.gasless 0
          ⟨10000000, [], []⟩ (launchDecision "Tok" "ab" "d")).1.error =
        some "Invalid ticker: AB. Must be 3-10 uppercase letters or numbers." := by
  have h := launch_invalid_ticker ⟨some 5, 1000000, some 10000⟩ scriptPlatform
    ExecMode.gasless 0 ⟨10000000, [], []⟩ "Tok" "ab" "d"
    (by decide) (by decide) (by decide) (by decide)
  exact ⟨h.2.1, h.2.2.2.trans (by decide)⟩

/- ===================== RobustProvider.call (rpc-provider.ts) ===================== -/

/-- Outcome of one scripted RPC attempt: success, a retryable error (rate
limit or transient network per the error classifier), or any other error,
which call rethrows at once. -/
inductive RpcOutcome (T : Type) where
  | ok (v : T) : RpcOutcome T
  | retryable (msg : String) : RpcOutcome T
  | fatal (msg : String) : RpcOutcome T

/-- Result of RobustProvider.call: a value, an immediately rethrown
non-retryable error, or the aggregated permanent failure carrying the
attempt count, the endpoint count and the last underlying error. -/
inductive CallResult (T : Type) where
  | ok (v : T) : CallResult T
  | fatalErr (msg : String) : CallResult T
  | exhausted (attempts : Nat) (endpoints : Nat) (lastErr : Option String) : CallResult T
deriving DecidableEq

/-- The aggregated error message rendered from the exhaustion record. -/
def robustErrorMessage (opName : String) (attempts endpoints : Nat)
    (lastErr : Option String) : String :=
  opName ++ " failed after " ++ toString attempts ++ " attempts across " ++
    toString endpoints ++ " RPCs. Last error: " ++ lastErr.getD "Unknown error"

/-- Result of the inner per-endpoint retry loop of call, with the number
of attempts it consumed (a spent loop consumed its full budget). -/
inductive InnerRes (T : Type) where
  | done (v : T) (used : Nat) : InnerRes T
  | thrown (msg : String) (used : Nat) : InnerRes T
  | spent (lastErr : Option String) : InnerRes T

/-- The inner for-loop of call: up to the remaining budget of attempts on
the current endpoint, sleeping with backoff (immaterial to the result) and
continuing on a retryable error, returning on success and rethrowing any
other error at once. The operation script is indexed by the global attempt
number t0. -/
def innerRetry (op : Nat → RpcOutcome T) (t0 : Nat) : Nat → Option String → InnerRes T
  | 0, le => .spent le
  | k + 1, _ =>
    match op t0 with
    | .ok v => .done v 1
    | .fatal m => .thrown m 1
    | .retryable m =>
      match innerRetry op (t0 + 1) k (some m) with
      | .done v u => .done v (u + 1)
      | .thrown m2 u => .thrown m2 (u + 1)
      | .spent le2 => .spent le2

/-- The while-loop of RobustProvider.call over the state of endpoint
index, total attempt count and last error. Loop guard: total below
endpoints times maxRetries; after a spent inner loop, switchToNext
advances the pointer cyclically and reports exhaustion when the advance
would wrap to the first endpoint from a non-initial one. The fuel (set
above the attempt bound at entry) only serves totality. Returns the
result and the total number of attempts made. -/
def callLoop (op : Nat → RpcOutcome T) (N R : Nat) :
    Nat → Nat → Nat → Option String → CallResult T × Nat
  | 0, _, total, le => (.exhausted total N le, total)
  | fuel + 1, idx, total, le =>
    if total < N * R then
      match innerRetry op total R le with
      | .done v u => (.ok v, total + u)
      | .thrown m u => (.fatalErr m, total + u)
      | .spent le2 =>
        if (idx + 1) % N = 0 ∧ idx ≠ 0 then (.exhausted (total + R) N le2, total + R)
        else callLoop op N R fuel ((idx + 1) % N) (total + R) le2
    else (.exhausted total N le, total)

/-- RobustProvider.call, started from a given current-endpoint index (the
pointer is 0 on a freshly constructed provider and persists across
calls). -/
def robustCall (op : Nat → RpcOutcome T) (N R idx : Nat) : CallResult T × Nat :=
  callLoop op N R (N * R + 1) idx 0 none


theorem innerRetry_succ (op : Nat → RpcOutcome T) (t0 k : Nat) (le : Option String) :
    innerRetry op t0 (k + 1) le =
      match op t0 with
      | .ok v => .done v 1
      | .fatal m => .thrown m 1
      | .retryable m =>
        match innerRetry op (t0 + 1) k (some m) with
        | .done v u => .done v (u + 1)
        | .thrown m2 u => .thrown m2 (u + 1)
        | .spent le2 => .spent le2 := rfl

theorem callLoop_succ_done (op : Nat → RpcOutcome T) (N R fuel idx total : Nat)
    (le : Option String) (v : T) (u : Nat) (hguard : total < N * R)
    (hres : innerRetry op total R le = .done v u) :
    callLoop op N R (fuel + 1) idx total le = (.ok v, total + u) := by
  rw [callLoop, if_pos hguard, hres]

theorem callLoop_succ_thrown (op : Nat → RpcOutcome T) (N R fuel idx total : Nat)
    (le : Option String) (m : String) (u : Nat) (hguard : total < N * R)
    (hres : innerRetry op total R le = .thrown m u) :
    callLoop op N R (fuel + 1) idx total le = (.fatalErr m, total + u) := by
  rw [callLoop, if_pos hguard, hres]

theorem callLoop_succ_spent (op : Nat → RpcOutcome T) (N R fuel idx total : Nat)
    (le le2 : Option String) (hguard : total < N * R)
    (hres : innerRetry op total R le = .spent le2) :
    callLoop op N R (fuel + 1) idx total le =
      if (idx + 1) % N = 0 ∧ idx ≠ 0 then (.exhausted (total + R) N le2, total + R)
      else callLoop op N R fuel ((idx + 1) % N) (total + R) le2 := by
  rw [callLoop, if_pos hguard, hres]

theorem callLoop_succ_guardfail (op : Nat → RpcOutcome T) (N R fuel idx total : Nat)
    (le : Option String) (hguard : ¬(total < N * R)) :
    callLoop op N R (fuel + 1) idx total le = (.exhausted total N le, total) := by
  rw [callLoop, if_neg hguard]

theorem innerRetry_all_retryable (op : Nat → RpcOutcome T) (msg : Nat → String)
    (hop : ∀ n, op n = .retryable (msg n)) :
    ∀ (k t0 : Nat) (le : Option String),
      innerRetry op t0 k le =
        .spent (if k = 0 then le else some (msg (t0 + k - 1))) := by
  intro k
  induction k with
  | zero => intro t0 le; rfl
  | succ k ih =>
    intro t0 le
    rw [innerRetry_succ, hop t0]
    show (match innerRetry op (t0 + 1) k (some (msg t0)) with
      | InnerRes.done v u => InnerRes.done v (u + 1)
      | InnerRes.thrown m2 u => InnerRes.thrown m2 (u + 1)
      | InnerRes.spent le2 => InnerRes.spent le2) = _
    rw [ih (t0 + 1) (some (msg t0))]
    cases k with
    | zero => simp
    | succ k =>
      rw [if_neg (Nat.succ_ne_zero k)]
      show InnerRes.spent (some (msg (t0 + 1 + (k + 1) - 1))) =
        InnerRes.spent (if k + 1 + 1 = 0 then le else some (msg (t0 + (k + 1 + 1) - 1)))
      rw [if_neg (Nat.succ_ne_zero (k + 1))]
      have harg : t0 + 1 + (k + 1) - 1 = t0 + (k + 1 + 1) - 1 := by omega
      rw [harg]

theorem callLoop_all_retryable (op : Nat → RpcOutcome T) (msg : Nat → String)
    (hop : ∀ n, op n = .retryable (msg n)) (N R : Nat) (hR : 1 ≤ R) :
    ∀ (d idx total fuel : Nat) (le : Option String),
      idx < N → N - idx = d + 1 → total + (N - idx) * R = N * R →
      fuel ≥ N - idx + 1 →
      callLoop op N R fuel idx total le =
        (.exhausted (N * R) N (some (msg (N * R - 1))), N * R) := by
  intro d
  induction d with
  | zero =>
    intro idx total fuel le hidx hd htotal hfuel
    have htot : total + R = N * R := by
      have h1 : (N - idx) = 1 := by omega
      rw [h1, Nat.one_mul] at htotal; exact htotal
    match fuel, hfuel with
    | f + 1, _ =>
      have hguard : total < N * R := by omega
      have hRne : ¬(R = 0) := by omega
      have hspent : innerRetry op total R le = .spent (some (msg (total + R - 1))) := by
        rw [innerRetry_all_retryable op msg hop R total le, if_neg hRne]
      rw [callLoop_succ_spent op N R f idx total le _ hguard hspent]
      by_cases hN1 : N = 1
      · subst hN1
        have hidx0 : idx = 0 := by omega
        subst hidx0
        rw [if_neg (by decide : ¬((0 + 1) % 1 = 0 ∧ (0 : Nat) ≠ 0))]
        match f, (by omega : f ≥ 1) with
        | f2 + 1, _ =>
          rw [callLoop_succ_guardfail op 1 R f2 ((0 + 1) % 1) (total + R)
            (some (msg (total + R - 1))) (by omega)]
          rw [htot]
      · have hsw : (idx + 1) % N = 0 ∧ idx ≠ 0 := by
          constructor
          · rw [show idx + 1 = N from by omega, Nat.mod_self]
          · omega
        rw [if_pos hsw, htot]
  | succ d ih =>
    intro idx total fuel le hidx hd htotal hfuel
    match fuel, hfuel with
    | f + 1, _ =>
      have hguard : total < N * R := by
        have h2 : 1 * R ≤ (N - idx) * R := Nat.mul_le_mul_right R (by omega)
        rw [Nat.one_mul] at h2
        omega
      have hRne : ¬(R = 0) := by omega
      have hspent : innerRetry op total R le = .spent (some (msg (total + R - 1))) := by
        rw [innerRetry_all_retryable op msg hop R total le, if_neg hRne]
      rw [callLoop_succ_spent op N R f idx total le _ hguard hspent]
      have hidx1 : idx + 1 < N := by omega
      have hmod : (idx + 1) % N = idx + 1 := Nat.mod_eq_of_lt hidx1
      rw [hmod, if_neg (by omega : ¬(idx + 1 = 0 ∧ idx ≠ 0))]
      have hstep : (total + R) + (N - (idx + 1)) * R = N * R := by
        have hsub : N - idx = (N - (idx + 1)) + 1 := by omega
        rw [hsub, Nat.succ_mul] at htotal
        omega
      exact ih (idx + 1) (total + R) f (some (msg (total + R - 1)))
        hidx1 (by omega) hstep (by omega)

/-- Exhaustion of robustCall from the initial endpoint pointer on an
always-retryable script: exactly N times R attempts, then the aggregated
failure record. Shared between the retry-bound and the getBalance
results. -/
theorem robustCall_all_retryable (op : Nat → RpcOutcome T) (msg : Nat → String)
    (hop : ∀ n, op n = .retryable (msg n)) (N R : Nat) (hN : 1 ≤ N) (hR : 1 ≤ R) :
    robustCall op N R 0 =
      (.exhausted (N * R) N (some (msg (N * R - 1))), N * R) := by
  unfold robustCall
  have hfuel : N ≤ N * R := Nat.le_mul_of_pos_right N hR
  exact callLoop_all_retryable op msg hop N R hR (N - 1) 0 0 (N * R + 1) none
    (by omega) (by omega) (by simp) (by omega)

theorem innerRetry_done_used_le (op : Nat → RpcOutcome T) :
    ∀ (k t0 : Nat) (le : Option String) (v : T) (u : Nat),
      innerRetry op t0 k le = .done v u → u ≤ k := by
  intro k
  induction k with
  | zero => intro t0 le v u h; cases h
  | succ k ih =>
    intro t0 le v u h
    rw [innerRetry_succ] at h
    rcases hoc : op t0 with w | m | m <;> simp only [hoc] at h
    · cases h; omega
    · rcases hrec : innerRetry op (t0 + 1) k (some m) with ⟨w2, u2⟩ | ⟨m2, u2⟩ | le2 <;>
        simp only [hrec] at h
      · cases h
        have := ih (t0 + 1) (some m) _ _ hrec
        omega
      · cases h
      · cases h
    · cases h

theorem innerRetry_thrown_used_le (op : Nat → RpcOutcome T) :
    ∀ (k t0 : Nat) (le : Option String) (m : String) (u : Nat),
      innerRetry op t0 k le = .thrown m u → u ≤ k := by
  intro k
  induction k with
  | zero => intro t0 le m u h; cases h
  | succ k ih =>
    intro t0 le m u h
    rw [innerRetry_succ] at h
    rcases hoc : op t0 with w | m2 | m2 <;> simp only [hoc] at h
    · cases h
    · rcases hrec : innerRetry op (t0 + 1) k (some m2) with ⟨w2, u2⟩ | ⟨m3, u2⟩ | le2 <;>
        simp only [hrec] at h
      · cases h
      · cases h
        have := ih (t0 + 1) (some m2) _ _ hrec
        omega
      · cases h
    · cases h; omega

theorem callLoop_attempts_le (op : Nat → RpcOutcome T) (N R : Nat) :
    ∀ (fuel idx a : Nat) (le : Option String), a ≤ N →
      (callLoop op N R fuel idx (a * R) le).2 ≤ N * R := by
  intro fuel
  induction fuel with
  | zero =>
    intro idx a le ha
    exact Nat.mul_le_mul_right R ha
  | succ fuel ih =>
    intro idx a le ha
    by_cases hguard : a * R < N * R
    · have haN : a < N := by
        rcases Nat.lt_or_ge a N with h | h
        · exact h
        · exact absurd (Nat.mul_le_mul_right R h) (by omega)
      have hup : (a + 1) * R ≤ N * R := Nat.mul_le_mul_right R (by omega)
      rw [Nat.succ_mul] at hup
      rcases hres : innerRetry op (a * R) R le with ⟨v, u⟩ | ⟨m, u⟩ | le2
      · have hu := innerRetry_done_used_le op R (a * R) le v u hres
        rw [callLoop_succ_done op N R fuel idx (a * R) le v u hguard hres]
        show a * R + u ≤ N * R
        omega
      · have hu := innerRetry_thrown_used_le op R (a * R) le m u hres
        rw [callLoop_succ_thrown op N R fuel idx (a * R) le m u hguard hres]
        show a * R + u ≤ N * R
        omega
      · rw [callLoop_succ_spent op N R fuel idx (a * R) le le2 hguard hres]
        by_cases hsw : (idx + 1) % N = 0 ∧ idx ≠ 0
        · rw [if_pos hsw]
          show a * R + R ≤ N * R
          omega
        · rw [if_neg hsw]
          have h3 : a * R + R = (a + 1) * R := (Nat.succ_mul a R).symm
          rw [h3]
          exact ih ((idx + 1) % N) (a + 1) le2 (by omega)
    · match fuel with
      | fuel =>
        rw [callLoop_succ_guardfail op N R fuel idx (a * R) le hguard]
        exact Nat.mul_le_mul_right R ha

/-- C5: on an operation that always raises a retryable error, call (from
the initial endpoint pointer of a fresh provider) makes exactly
N endpoints times R maxRetries attempts and then fails permanently with
the aggregated error carrying that attempt count, the endpoint count and
the last underlying error; and for every operation and every starting
pointer it never makes more than N times R attempts. -/
theorem robustCall_retry_bound (op : Nat → RpcOutcome T) (msg : Nat → String)
    (N R : Nat) (hN : 1 ≤ N) (hR : 1 ≤ R)
    (hop : ∀ n, op n = .retryable (msg n)) :
    robustCall op N R 0 =
        (.exhausted (N * R) N (some (msg (N * R - 1))), N * R) ∧
      ∀ (op2 : Nat → RpcOutcome T) (idx : Nat), (robustCall op2 N R idx).2 ≤ N * R := by
  refine ⟨robustCall_all_retryable op msg hop N R hN hR, ?_⟩
  intro op2 idx
  have h := callLoop_attempts_le op2 N R (N * R + 1) idx 0 none (Nat.zero_le N)
  rw [Nat.zero_mul] at h
  exact h

/-- Witness for C5 at a concrete always-retryable script with two
endpoints and three retries. -/
theorem robustCall_retry_bound_witness :
    robustCall (T := Nat) (fun n => .retryable (toString n)) 2 3 0 =
        (.exhausted 6 2 (some "5"), 6) ∧
      (robustCall (T := Nat) (fun _ => .ok 7) 2 3 0).2 ≤ 6 := by
  have h := robustCall_retry_bound (T := Nat) (fun n => .retryable (toString n))
    (fun n => toString n) 2 3 (by decide) (by decide) (fun n => rfl)
  exact ⟨h.1, h.2 (fun _ => .ok 7) 0⟩

/- ===================== C10: getBalance totality ===================== -/

/-- The catch wrapper of AgentRunner.getBalance around the robust call:
a successful query records and returns the fresh balance; any caught
failure returns the previously recorded balance unchanged (the state
starts at zero, the fallback when nothing was ever recorded). Returns the
value handed to the cycle and the recorded state balance. -/
def runnerGetBalance (call : CallResult Nat) (stBalance : Nat) : Nat × Nat :=
  match call with
  | .ok b => (b, b)
  | .fatalErr _ => (stBalance, stBalance)
  | .exhausted _ _ _ => (stBalance, stBalance)

/-- getBalance composed with the robust provider from the initial
pointer. -/
def getBalanceRobust (op : Nat → RpcOutcome Nat) (N R : Nat) (stBalance : Nat) :
    Nat × Nat :=
  runnerGetBalance (robustCall op N R 0).1 stBalance

/-- C10: getBalance is total at the runner boundary. On an
always-retryable script the robust call exhausts all its retries, the
failure is caught, and the stale recorded balance (zero when nothing was
recorded) is returned with the state unchanged; a successful query
returns and records the fresh balance; an immediately rethrown error is
likewise caught into the stale balance. -/
theorem getBalance_total (op : Nat → RpcOutcome Nat) (msg : Nat → String)
    (N R : Nat) (hN : 1 ≤ N) (hR : 1 ≤ R) (st : Nat)
    (hop : ∀ n, op n = .retryable (msg n)) :
    getBalanceRobust op N R st = (st, st) ∧
      (∀ (op2 : Nat → RpcOutcome Nat) (b : Nat),
        (robustCall op2 N R 0).1 = .ok b → getBalanceRobust op2 N R st = (b, b)) ∧
      (∀ (op2 : Nat → RpcOutcome Nat) (e : String),
        (robustCall op2 N R 0).1 = .fatalErr e → getBalanceRobust op2 N R st = (st, st)) := by
  refine ⟨?_, ?_, ?_⟩
  · unfold getBalanceRobust
    rw [robustCall_all_retryable op msg hop N R hN hR]
    rfl
  · intro op2 b hok
    unfold getBalanceRobust
    rw [hok]
    rfl
  · intro op2 e herr
    unfold getBalanceRobust
    rw [herr]
    rfl

/-- Witness for C10: the stale balance 42 is preserved under exhaustion,
and a successful script records the fresh value. -/
theorem getBalance_total_witness :
    getBalanceRobust (fun n => .retryable (toString n)) 2 3 42 = (42, 42) ∧
      getBalanceRobust (fun _ => .ok 7) 2 3 42 = (7, 7) := by
  have h := getBalance_total (fun n => .retryable (toString n)) (fun n => toString n)
    2 3 (by decide) (by decide) 42 (fun n => rfl)
  exact ⟨h.1, h.2.1 (fun _ => .ok 7) 7 (by rfl)⟩

/- ===================== requestWithPayment (client.ts) ===================== -/

/-- JavaScript or-default over an optional string: the default is used
when the value is absent or falsy (empty). -/
def jsOrStr (o : Option String) (d : String) : String :=
  match o with
  | some s => if s = "" then d else s
  | none => d

/-- The payment-requirement fields the client reads from a 402 body
(errors.ts X402PaymentRequirements, restricted to the consumed fields). -/
structure PaymentReqs where
  maxAmountRequired : String
  payTo : String
  asset : Option String
  extraName : Option String
  extraVersion : Option String
deriving DecidableEq

/-- Raw response of one transport attempt, before the axios response
interceptor. -/
inductive RawResp (T : Type) where
  | ok (v : T) : RawResp T
  | status402 (errMsg : Option String) (accepts : List PaymentReqs) : RawResp T
  | status429 (retryAfter : Option Nat) : RawResp T
  | noResponse : RawResp T
  | status404 (fullUrl endpoint baseUrl : String) : RawResp T
  | statusOther (status : Nat) (dataMessage axiosMessage dataCode : Option String)
      (statusText : String) : RawResp T

/-- The typed SDK errors of errors.ts; the code of X402LaunchError is
optional. -/
inductive SdkError where
  | x402 (message : String) (code : Option String) : SdkError
  | paymentRequired (message : String) (paymentDetails : Option PaymentReqs) : SdkError
  | rateLimit (message : String) (retryAfter : Option Nat) : SdkError
  | network (message : String) : SdkError
deriving DecidableEq

/-- The axios response interceptor installed in the client constructor:
maps each non-success response to its typed error;
extractPaymentRequirements yields the first accepted payment method. -/
def interceptResp : RawResp T → Except SdkError T
  | .ok v => .ok v
  | .status402 errMsg accepts =>
    .error (.paymentRequired (jsOrStr errMsg "Payment required") accepts.head?)
  | .status429 ra => .error (.rateLimit "Rate limit exceeded" ra)
  | .noResponse => .error (.network "Network error - please check your connection")
  | .status404 fullUrl endpoint baseUrl =>
    .error (.x402 ("API endpoint not found (404): " ++ fullUrl ++
      ". Check if the endpoint '" ++ endpoint ++ "' exists or if the base URL '" ++
      baseUrl ++ "' is correct.") (some "API_NOT_FOUND"))
  | .statusOther status dataMessage axiosMessage dataCode statusText =>
    .error (.x402
      (jsOrStr dataMessage (jsOrStr axiosMessage
        ("HTTP " ++ toString status ++ ": " ++ statusText)))
      (some (jsOrStr dataCode (toString status))))

/-- The typed verification-failure message built when a 402 answers the
paid retry, naming the balance of the required asset as the likely
cause. -/
def verificationFailedMsg (usdcAddress : String) (reqs : PaymentReqs)
    (errMessage : String) : String :=
  "Payment verification failed: " ++
    (if errMessage = "" then "Payment was rejected" else errMessage) ++
    ". Check your " ++
    (if reqs.asset = some usdcAddress then "USDC" else "tokens") ++
    " balance (required: " ++
    (if reqs.maxAmountRequired = "" then "unknown" else reqs.maxAmountRequired) ++ ")."

/-- The retry loop of requestWithPayment over a transport script indexed
by the attempt number and the payment-header flag; remaining is the loop
budget (retries plus one minus the attempt number), made the attempts
performed, signs the payment authorizations signed. A 402 with
requirements on the unpaid first attempt signs one authorization and
retries once with the header attached; a 402 on a paid attempt is the
fatal typed verification failure; a rate limit backs off and retries
while attempts remain; everything else is rethrown. -/
def rwpGo (usdcAddress : String) (transport : Nat → Bool → RawResp T)
    (retries : Nat) : Nat → Nat → Bool → Nat → Nat → Except SdkError T × Nat × Nat
  | 0, _, _, made, signs =>
    (.error (.x402 "Request failed after retries" none), made, signs)
  | remaining + 1, attempt, hasPay, made, signs =>
    match interceptResp (transport attempt hasPay) with
    | .ok v => (.ok v, made + 1, signs)
    | .error e =>
      match e with
      | .paymentRequired msg details =>
        match details with
        | some reqs =>
          if attempt = 0 ∧ hasPay = false then
            rwpGo usdcAddress transport retries remaining (attempt + 1) true
              (made + 1) (signs + 1)
          else if hasPay then
            (.error (.x402 (verificationFailedMsg usdcAddress reqs msg)
              (some "PAYMENT_VERIFICATION_FAILED")), made + 1, signs)
          else (.error (.paymentRequired msg details), made + 1, signs)
        | none => (.error (.paymentRequired msg details), made + 1, signs)
      | .rateLimit msg ra =>
        if attempt < retries then
          rwpGo usdcAddress transport retries remaining (attempt + 1) hasPay
            (made + 1) signs
        else (.error (.rateLimit msg ra), made + 1, signs)
      | other => (.error other, made + 1, signs)

/-- X402LaunchClient.requestWithPayment (the default retry budget in the
source is three): returns the result with the attempts made and the
authorizations signed. -/
def requestWithPayment (usdcAddress : String) (retries : Nat)
    (transport : Nat → Bool → RawResp T) : Except SdkError T × Nat × Nat :=
  rwpGo usdcAddress transport retries (retries + 1) 0 false 0 0

/-- C6: when the platform answers payment-required (with requirements
attached) both to the unpaid request and to the single paid retry,
requestWithPayment makes exactly two attempts, signs exactly one payment
authorization, and throws the typed verification-failure error carrying
the PAYMENT_VERIFICATION_FAILED code and the message naming the balance
of the required asset; no third attempt is issued. -/
theorem rwp_double_402 (usdc : String) (transport : Nat → Bool → RawResp T)
    (m1 m2 : Option String) (reqs reqs2 : PaymentReqs) (acc1 acc2 : List PaymentReqs)
    (h0 : transport 0 false = .status402 m1 (reqs :: acc1))
    (h1 : transport 1 true = .status402 m2 (reqs2 :: acc2)) :
    requestWithPayment usdc 3 transport =
      (.error (.x402 (verificationFailedMsg usdc reqs2 (jsOrStr m2 "Payment required"))
        (some "PAYMENT_VERIFICATION_FAILED")), 2, 1) := by
  unfold requestWithPayment
  show rwpGo usdc transport 3 (3 + 1) 0 false 0 0 = _
  rw [rwpGo, h0]
  show rwpGo usdc transport 3 3 (0 + 1) true (0 + 1) (0 + 1) = _
  rw [rwpGo, h1]
  rfl

/-- Witness for C6 at a concrete double-402 transport script. -/
theorem rwp_double_402_witness :
    requestWithPayment (T := Nat) "0xUSDC" 3
        (fun n p =>
          if n = 0 ∧ p = false then
            .status402 none [⟨"1000", "0xPay", some "0xUSDC", none, none⟩]
          else if n = 1 ∧ p = true then
            .status402 (some "denied") [⟨"1000", "0xPay", some "0xUSDC", none, none⟩]
          else .ok 0) =
      (.error (.x402 ("Payment verification failed: denied. " ++
        "Check your USDC balance (required: 1000).")
        (some "PAYMENT_VERIFICATION_FAILED")), 2, 1) := by
  have h := rwp_double_402 (T := Nat) "0xUSDC"
    (fun n p =>
      if n = 0 ∧ p = false then
        .status402 none [⟨"1000", "0xPay", some "0xUSDC", none, none⟩]
      else if n = 1 ∧ p = true then
        .status402 (some "denied") [⟨"1000", "0xPay", some "0xUSDC", none, none⟩]
      else .ok 0)
    none (some "denied") ⟨"1000", "0xPay", some "0xUSDC", none, none⟩
    ⟨"1000", "0xPay", some "0xUSDC", none, none⟩ [] [] (by rfl) (by rfl)
  exact h.trans (by rfl)

/- ===================== C8: the low-balance gate of one cycle ===================== -/

/-- Trace of the external calls one cycle performs: model invocations,
market-data fetches and trading-client calls. -/
structure CycleTrace where
  modelCalls : Nat
  marketCalls : Nat
  clientCalls : List ClientCall
deriving DecidableEq

/-- The AgentExecutionResult fields one cycle produces. -/
structure CycleResult where
  success : Bool
  action : String
  decision : Decision
  error : Option String
  balanceBefore : Nat
  balanceAfter : Option Nat

/-- The scripted environment of one cycle: the outcomes of the two
balance queries, the model reply, the JSON runtime parser, the platform
and the execution mode and clock. -/
structure CycleEnv where
  balanceFetch1 : CallResult Nat
  balanceFetch2 : CallResult Nat
  modelReply : String
  jp : String → Except String Json
  plat : Platform
  mode : ExecMode
  now : Nat

/-- AgentRunner.executeOneCycle, second variant: fetch the balance
through the robust provider, gate on the minimum balance (default 10000
atomic units) returning the failed wait result at once when below it,
otherwise fetch market data (tolerating failure by substituting an empty
token list), invoke the model, parse the decision, dispatch it, and fetch
the closing balance. Prompt construction is pure and cannot influence the
scripted model reply, so its text is not modelled; the trace counts the
model and platform interactions. -/
def executeOneCycle (cfg : AgentConfig) (env : CycleEnv) (st : AgentState) :
    CycleResult × AgentState × CycleTrace :=
  if (runnerGetBalance env.balanceFetch1 st.balance).1 < cfg.minBalanceUSDC.getD 10000 then
    ({ success := false
       action := "wait"
       decision :=
        { action := "wait"
          params := Json.obj [("reason", Json.str "Low balance")]
          reasoning := Json.str ("Balance " ++
            toString (runnerGetBalance env.balanceFetch1 st.balance).1 ++
            " is below minimum " ++ toString (cfg.minBalanceUSDC.getD 10000))
          confidence := none }
       error := some "Low balance"
       balanceBefore := (runnerGetBalance env.balanceFetch1 st.balance).1
       balanceAfter := none },
     { st with balance := (runnerGetBalance env.balanceFetch1 st.balance).2 },
     ⟨0, 0, []⟩)
  else
    let st1 : AgentState := { st with balance := (runnerGetBalance env.balanceFetch1 st.balance).2 }
    let _market : List Json :=
      match env.plat.discover with
      | .ok tokens => tokens
      | .error _ => []
    let decision := parseDecision env.jp env.modelReply
    let step := executeDecision cfg env.plat env.mode env.now st1 decision
    let fetch2 := runnerGetBalance env.balanceFetch2 step.2.1.balance
    ({ success := step.1.success
       action := decision.action
       decision := decision
       error := step.1.error
       balanceBefore := (runnerGetBalance env.balanceFetch1 st.balance).1
       balanceAfter := some fetch2.1 },
     { step.2.1 with balance := fetch2.2 },
     ⟨1, 1, step.2.2⟩)

/-- C8: when the fetched balance is strictly below the configured
minimum, one cycle immediately returns a failed wait result carrying the
Low balance error, and performs no model call and no trading-platform
call in that cycle. -/
theorem cycle_low_balance_gate (cfg : AgentConfig) (env : CycleEnv) (st : AgentState)
    (hlow : (runnerGetBalance env.balanceFetch1 st.balance).1 <
      cfg.minBalanceUSDC.getD 10000) :
    (executeOneCycle cfg env st).1.success = false ∧
      (executeOneCycle cfg env st).1.action = "wait" ∧
      (executeOneCycle cfg env st).1.error = some "Low balance" ∧
      (executeOneCycle cfg env st).1.balanceBefore =
        (runnerGetBalance env.balanceFetch1 st.balance).1 ∧
      (executeOneCycle cfg env st).2.2.modelCalls = 0 ∧
      (executeOneCycle cfg env st).2.2.marketCalls = 0 ∧
      (executeOneCycle cfg env st).2.2.clientCalls = [] := by
  unfold executeOneCycle
  rw [if_pos hlow]
  exact ⟨rfl, rfl, rfl, rfl, rfl, rfl, rfl⟩

/-- Witness for C8 at the spec's scenario: balance 5000 atomic against a
minimum of 10000. -/
theorem cycle_low_balance_gate_witness :
    (executeOneCycle ⟨some 5, 1000000, some 10000⟩
        ⟨.ok 5000, .ok 5000, "", fun _ => .error "never", scriptPlatform,
          ExecMode.gasless, 0⟩
        ⟨0, [], []⟩).1.error = some "Low balance" ∧
      (executeOneCycle ⟨some 5, 1000000, some 10000⟩
          ⟨.ok 5000, .ok 5000, "", fun _ => .error "never", scriptPlatform,
            ExecMode.gasless, 0⟩
          ⟨0, [], []⟩).2.2.modelCalls = 0 := by
  have h := cycle_low_balance_gate ⟨some 5, 1000000, some 10000⟩
    ⟨.ok 5000, .ok 5000, "", fun _ => .error "never", scriptPlatform,
      ExecMode.gasless, 0⟩
    ⟨0, [], []⟩ (by decide)
  exact ⟨h.2.2.1, h.2.2.2.2.1⟩

/- ===================== C9: pause and stop ===================== -/

/-- The control fields of the runner mutated by pause and stop (hook
invocations are side channels; the clock is an explicit input). -/
structure RunnerCtl where
  isRunning : Bool
  isPaused : Bool
  statusLabel : String
  stoppedAt : Option Nat
deriving DecidableEq

/-- AgentRunner.pause: set the paused flag and the paused status label;
the onPause hook runs inline afterwards. -/
def pauseRunner (s : RunnerCtl) : RunnerCtl :=
  { s with isPaused := true, statusLabel := "paused" }

/-- AgentRunner.stop: clear the running flag, set the stopped status
label and record the stop time from the current clock; the onStop hook
and dashboard notification run afterwards on every call. -/
def stopRunner (now : Nat) (s : RunnerCtl) : RunnerCtl :=
  { s with isRunning := false, statusLabel := "stopped", stoppedAt := some now }

/-- C9 counterexample: stopping an already stopped runner at a later
clock reading is not a no-op on the observable state: the stoppedAt
timestamp of the status is refreshed by the second call. -/
theorem stop_not_noop_counterexample :
    stopRunner 2000 (stopRunner 1000 ⟨true, false, "running", none⟩) ≠
      stopRunner 1000 ⟨true, false, "running", none⟩ := by
  decide

/-- C9 amended: pause is idempotent on the runner state; a second stop
leaves the running flag and status label unchanged and only refreshes the
stoppedAt timestamp to the later clock reading (so it is a no-op exactly
when the clock reading is unchanged; the stop hook re-fires regardless). -/
theorem pause_stop_idempotence (s : RunnerCtl) (t1 t2 : Nat) :
    pauseRunner (pauseRunner s) = pauseRunner s ∧
      stopRunner t1 (stopRunner t1 s) = stopRunner t1 s ∧
      stopRunner t2 (stopRunner t1 s) = { stopRunner t1 s with stoppedAt := some t2 } :=
  ⟨rfl, rfl, rfl⟩

end AgentPad
